import Mathlib

/-!
Verification of the grocery-price batch scraper.

A shallow embedding of `batch-scraper.js` (grocery-price-scraper): the pure
data transformations of the pipeline — product extraction from API payloads
and rendered pages, the species-conflict relevance filter, price-per-kg
normalization, candidate/observation construction, the per-ingredient
processing cycle (as an event trace), and the re-scrape eligibility
predicate of `Database.getUnprocessedIngredients`.

Modelling conventions:
* JavaScript numbers are modelled as `ℚ` (exact rationals standing in for
  IEEE doubles; all prices/weights in scope are small decimals).
* JavaScript `null`/`undefined` are modelled with `Option`; JS falsiness of
  strings (`""` is falsy) and numbers (`0` is falsy) is modelled explicitly
  where the source relies on it.
* The specific regular expressions of the source are transcribed as
  hand-rolled matchers over `List Char` (leftmost match, alternatives in
  source order, greedy digit runs — which is exact for these patterns since
  no backtracking into a digit run can change a match).
* Lowercasing is ASCII-only (`Char.toLower`); the category stems and regex
  literals in the source are all ASCII, so this matches the behaviour of
  `toLowerCase` on every string the comparisons inspect.
* Database writes and the OpenAI call are modelled as an event trace; the
  externally-supplied parts (HTTP, browser) are inputs to the functions
  that consume them.
-/

namespace BatchScraper

/- Batteries marks the `Rat` field operations `@[irreducible]`, which keeps
`decide` from evaluating concrete rational arithmetic; restore default
reducibility locally so concrete runs of the embedded pipeline evaluate. -/
attribute [local semireducible] Rat.add Rat.mul Rat.inv Rat.sub Rat.ofScientific

/-! ## JavaScript-semantics helpers -/

/-- JS string truthiness: `undefined`/`null` and `""` are falsy. -/
def jsTruthyS : Option String → Bool
  | none => false
  | some s => s ≠ ""

/-- Embeds `a || b` on JS strings (first truthy value, else `null`). -/
def jsOrS (a b : Option String) : Option String :=
  if jsTruthyS a then a else b

/-- Embeds `x || null` on a JS string: keeps the value only if truthy. -/
def jsOrNullS (a : Option String) : Option String :=
  if jsTruthyS a then a else none

/-- JS falsiness of a nullable number: `null`/`undefined` and `0` are falsy. -/
def jsFalsyQ : Option ℚ → Bool
  | none => true
  | some q => q = 0

/-- Word characters of the JS `\b` boundary and `\w` class: `[A-Za-z0-9_]`. -/
def isWordChar (c : Char) : Bool :=
  (('a' ≤ c && c ≤ 'z') || ('A' ≤ c && c ≤ 'Z') || ('0' ≤ c && c ≤ '9') || c = '_')

/-- ASCII-lowercase a string (models `toLowerCase` for the ASCII comparisons
the source performs). -/
def lowerStr (s : String) : String :=
  String.mk (s.data.map Char.toLower)

/-- Split on runs of whitespace, JS `split(/\s+/)` semantics: a leading or
trailing run contributes an empty piece, interior runs are single
separators. -/
def jsSplitWsGo : Option (List Char) → List Char → List String
  | some acc, [] => [String.mk acc.reverse]
  | none, [] => [""]
  | some acc, c :: cs =>
      if c.isWhitespace then String.mk acc.reverse :: jsSplitWsGo none cs
      else jsSplitWsGo (some (c :: acc)) cs
  | none, c :: cs =>
      if c.isWhitespace then jsSplitWsGo none cs
      else jsSplitWsGo (some [c]) cs

/-- JS `s.split(/\s+/)`. -/
def jsSplitWs (s : String) : List String :=
  jsSplitWsGo (some []) s.data

/-- JS `s.trim()` (ASCII whitespace at both ends). -/
def jsTrim (s : String) : String :=
  String.mk ((s.data.dropWhile Char.isWhitespace).reverse.dropWhile Char.isWhitespace |>.reverse)

/-- Tests whether the char list `a` begins the char list `b`. -/
def startsWithB : List Char → List Char → Bool
  | [], _ => true
  | _ :: _, [] => false
  | a :: as, b :: bs => a = b && startsWithB as bs

/-- Tests whether `sub` occurs contiguously inside `l` (used for JS `includes`). -/
def infixB (sub : List Char) : List Char → Bool
  | [] => startsWithB sub []
  | c :: cs => startsWithB sub (c :: cs) || infixB sub cs

/-- Substring containment, JS `String.prototype.includes`. -/
def containsSub (w sub : String) : Bool :=
  infixB sub.data w.data

/-! ## The relevance filter (`filterRelevantProducts`, source lines 581-636) -/

/-- A normalized raw product as produced by the extractors
(`RawProduct` of the spec; field names follow the source objects). -/
structure RawProduct where
  id : String
  title : String
  brand : Option String
  price : ℚ
  unit_price : Option String
  weight : Option String
  image_url : Option String
  badges : List String
  deriving Repr, DecidableEq, Inhabited

/-- Embeds `stemKeyword` (source lines 591-598): coarse category stem of one word. -/
def stemKeyword (word : String) : String :=
  if containsSub word "reinsdyr" || containsSub word "rein" then "rein"
  else if containsSub word "lam" || word = "lamb" then "lam"
  else if containsSub word "storfe" || containsSub word "okse" then "storfe"
  else if containsSub word "svin" || containsSub word "pork" then "svin"
  else if containsSub word "kylling" || containsSub word "chicken" then "kylling"
  else word

/-- The fixed mutual-exclusion table `conflictingStems` (lines 603-609). -/
def conflictingStems : List (String × List String) :=
  [("rein", ["lam", "storfe", "svin", "kylling"]),
   ("lam", ["rein", "storfe", "svin", "kylling"]),
   ("storfe", ["rein", "lam", "svin", "kylling"]),
   ("svin", ["rein", "lam", "storfe", "kylling"]),
   ("kylling", ["rein", "lam", "storfe", "svin"])]

/-- Embeds `conflictingStems.get(stem)` (`none` when the stem is not a key). -/
def conflictsOf (stem : String) : Option (List String) :=
  (conflictingStems.find? (fun kv => kv.1 = stem)).map (·.2)

/-- Keywords of an ingredient name: lowercase words of length > 2
(lines 582-585). -/
def ingredientKeywords (name : String) : List String :=
  (jsSplitWs (lowerStr name)).filter (fun w => w.length > 2)

/-- The stemmed words of a product title (lines 612-614). -/
def stemmedTitleWords (title : String) : List String :=
  (jsSplitWs (lowerStr title)).map stemKeyword

/-- The per-product veto of the filter callback (lines 611-628): `false`
iff the primary stem is in the conflict table and some stemmed word of the
title is a conflicting stem. -/
def productPasses (primaryStem : String) (product : RawProduct) : Bool :=
  match conflictsOf primaryStem with
  | some conflicts => conflicts.all (fun c => !(stemmedTitleWords product.title).contains c)
  | none => true

/-- The primary category stem: stem of the first keyword (line 601);
`""` when there is no keyword (the filter then returns early). -/
def primaryStemOf (name : String) : String :=
  ((ingredientKeywords name).map stemKeyword).headD ""

/-- Embeds `filterRelevantProducts` (lines 581-636): early return when there are no
keywords or no products, hard species veto via `productPasses`, and the
fail-open fallback to the unfiltered list when the veto removed everything. -/
def filterRelevantProducts (products : List RawProduct) (ingredientName : String) :
    List RawProduct :=
  if (ingredientKeywords ingredientName).length = 0 || products.length = 0 then products
  else if (products.filter (productPasses (primaryStemOf ingredientName))).length = 0 then
    products
  else products.filter (productPasses (primaryStemOf ingredientName))

/-! ## Regex transcriptions

Each `try…` function checks its pattern at the start of a char list and
returns the captures; `scanFirst` finds the leftmost match, as `String.match`
does. Alternatives are tried in the source order of the regex. -/

/-- Greedy digit run. -/
def digitSpan (cs : List Char) : List Char × List Char :=
  cs.span (·.isDigit)

/-- Greedy whitespace run, for `\s*`. -/
def wsSpan (cs : List Char) : List Char × List Char :=
  cs.span (·.isWhitespace)

/-- The number token `(\d+[.,]\d+)` (`requireFrac = true`) or
`(\d+[.,]?\d*)` (`requireFrac = false`): captured chars and rest. -/
def numTok (requireFrac : Bool) (cs : List Char) : Option (List Char × List Char) :=
  let (d1, rest1) := digitSpan cs
  if d1.isEmpty then none
  else
    match rest1 with
    | sep :: rest2 =>
      if sep = '.' || sep = ',' then
        let (d2, rest3) := digitSpan rest2
        if requireFrac && d2.isEmpty then none
        else some (d1 ++ sep :: d2, rest3)
      else if requireFrac then none else some (d1, rest1)
    | [] => if requireFrac then none else some (d1, rest1)

/-- Value of a digit run. -/
def digitsToNat (ds : List Char) : Nat :=
  ds.foldl (fun n c => n * 10 + (c.toNat - '0'.toNat)) 0

/-- Embeds `parseFloat` of a captured number token after `','` → `'.'` replacement:
integer digits, optional separator, fraction digits. -/
def parseDecQ (cap : List Char) : ℚ :=
  let (d1, rest) := digitSpan cap
  match rest with
  | _ :: d2 => (digitsToNat d1 : ℚ) + (digitsToNat d2 : ℚ) / (10 ^ d2.length : ℚ)
  | [] => (digitsToNat d1 : ℚ)

/-- JS `parseFloat` on an arbitrary string: leading whitespace, optional
sign, digits with an optional decimal point; `none` models `NaN`.
(Exponent notation is not produced by any of the scraped sources.) -/
def parseFloatJS (s : String) : Option ℚ :=
  let cs0 := s.data.dropWhile Char.isWhitespace
  let signed : Bool × List Char :=
    match cs0 with
    | '-' :: rest => (true, rest)
    | '+' :: rest => (false, rest)
    | _ => (false, cs0)
  let sgn : ℚ := if signed.1 then -1 else 1
  let (d1, r1) := digitSpan signed.2
  if d1.isEmpty then
    match r1 with
    | '.' :: r2 =>
      let (d2, _) := digitSpan r2
      if d2.isEmpty then none
      else some (sgn * ((digitsToNat d2 : ℚ) / (10 ^ d2.length : ℚ)))
    | _ => none
  else
    match r1 with
    | '.' :: r2 =>
      let (d2, _) := digitSpan r2
      some (sgn * ((digitsToNat d1 : ℚ) + (digitsToNat d2 : ℚ) / (10 ^ d2.length : ℚ)))
    | _ => some (sgn * (digitsToNat d1 : ℚ))

/-- Leftmost match: try the pattern at every start position, left to right. -/
def scanFirst {α : Type} (tryAt : List Char → Option α) : List Char → Option α
  | [] => tryAt []
  | c :: cs =>
    match tryAt (c :: cs) with
    | some r => some r
    | none => scanFirst tryAt cs

/-- Case-insensitive literal (ASCII folding, the `/i` flag); returns the
matched original chars and the rest. -/
def litCI : List Char → List Char → Option (List Char × List Char)
  | [], cs => some ([], cs)
  | _ :: _, [] => none
  | l :: ls, c :: cs =>
    if c.toLower = l.toLower then (litCI ls cs).map (fun p => (c :: p.1, p.2)) else none

/-- Case-sensitive literal; returns the rest. -/
def litCS : List Char → List Char → Option (List Char)
  | [], cs => some cs
  | _ :: _, [] => none
  | l :: ls, c :: cs => if c = l then litCS ls cs else none

/-- Ordered alternation of case-insensitive literals, e.g. `(g|kg|l|ml)`. -/
def altLitsCI (lits : List (List Char)) (cs : List Char) : Option (List Char × List Char) :=
  match lits with
  | [] => none
  | l :: ls =>
    match litCI l cs with
    | some r => some r
    | none => altLitsCI ls cs

/-- Boundary `\b` after a word character: next char absent or not a word char. -/
def boundaryOk : List Char → Bool
  | [] => true
  | c :: _ => !isWordChar c

/-- Regex `/(\d+)\s*[x×]\s*(\d+[.,]?\d*)\s*(g|kg|l|ml)\b/i` (multi-pack form 1,
source lines 199 and 308): multiplier, base value, matched unit chars. -/
def tryMultiPackX (cs : List Char) : Option (Nat × ℚ × List Char) := do
  let (d1, r1) := digitSpan cs
  guard (!d1.isEmpty)
  let (_, r2) := wsSpan r1
  match r2 with
  | c :: r3 =>
    guard (c.toLower = 'x' || c = '×')
    let (_, r4) := wsSpan r3
    let (cap, r5) ← numTok false r4
    let (_, r6) := wsSpan r5
    let (u, r7) ← altLitsCI [['g'], ['k', 'g'], ['l'], ['m', 'l']] r6
    guard (boundaryOk r7)
    some (digitsToNat d1, parseDecQ cap, u)
  | [] => none

/-- Regex `/(\d+)\s*pk\s*[aà]?\s*(\d+[.,]?\d*)\s*(g|kg|l|ml)\b/i` (multi-pack
form 2, source lines 200 and 309). -/
def tryMultiPackPk (cs : List Char) : Option (Nat × ℚ × List Char) := do
  let (d1, r1) := digitSpan cs
  guard (!d1.isEmpty)
  let (_, r2) := wsSpan r1
  let (_, r3) ← litCI ['p', 'k'] r2
  let (_, r4) := wsSpan r3
  let r5 :=
    match r4 with
    | c :: rest => if c = 'a' || c = 'A' || c = 'à' || c = 'À' then rest else r4
    | [] => r4
  let (_, r6) := wsSpan r5
  let (cap, r7) ← numTok false r6
  let (_, r8) := wsSpan r7
  let (u, r9) ← altLitsCI [['g'], ['k', 'g'], ['l'], ['m', 'l']] r8
  guard (boundaryOk r9)
  some (digitsToNat d1, parseDecQ cap, u)

/-- Regex `/(\d+[.,]?\d*)\s*(l|kg|g|ml|stk)/i` (Oda plain weight, line 209);
returns the full matched text (`weightMatch[0]`). -/
def tryOdaWeightPlain (cs : List Char) : Option (List Char) := do
  let (cap, r1) ← numTok false cs
  let (ws, r2) := wsSpan r1
  let (u, _) ← altLitsCI [['l'], ['k', 'g'], ['g'], ['m', 'l'], ['s', 't', 'k']] r2
  some (cap ++ ws ++ u)

/-- Regex `/(\d+[.,]?\d*)\s*(g|kg|l|ml|stk)\b/i` (Meny plain weight, line 318);
returns the full matched text. -/
def tryMenyWeightPlain (cs : List Char) : Option (List Char) := do
  let (cap, r1) ← numTok false cs
  let (ws, r2) := wsSpan r1
  let (u, r3) ← altLitsCI [['g'], ['k', 'g'], ['l'], ['m', 'l'], ['s', 't', 'k']] r2
  guard (boundaryOk r3)
  some (cap ++ ws ++ u)

/-- First alternative of the Oda price regex `kr\s*(\d+[.,]\d+)` (line 215,
case-sensitive: no `/i` flag); returns the number capture. -/
def tryOdaPriceA (cs : List Char) : Option (List Char) := do
  let r1 ← litCS ['k', 'r'] cs
  let (_, r2) := wsSpan r1
  let (cap, _) ← numTok true r2
  some cap

/-- Second alternative `(\d+[.,]\d+)\s*kr` of the Oda price regex. -/
def tryOdaPriceB (cs : List Char) : Option (List Char) := do
  let (cap, r1) ← numTok true cs
  let (_, r2) := wsSpan r1
  let _ ← litCS ['k', 'r'] r2
  some cap

/-- The whole Oda price regex: at each position alternative 1 then 2. -/
def tryOdaPrice (cs : List Char) : Option (List Char) :=
  match tryOdaPriceA cs with
  | some r => some r
  | none => tryOdaPriceB cs

/-- Regex `/(\d+[.,]\d+)\s*kr(?!\/)/` (Meny price regex 1, line 295): number,
`kr` not followed by `/`. -/
def tryMenyPrice1 (cs : List Char) : Option (List Char) := do
  let (cap, r1) ← numTok true cs
  let (_, r2) := wsSpan r1
  let r3 ← litCS ['k', 'r'] r2
  match r3 with
  | '/' :: _ => none
  | _ => some cap

/-- Regex `/kr\s*(\d+[.,]\d+)/` (Meny price regex 2, line 295). -/
def tryMenyPrice2 (cs : List Char) : Option (List Char) := do
  let r1 ← litCS ['k', 'r'] cs
  let (_, r2) := wsSpan r1
  let (cap, _) ← numTok true r2
  some cap

/-- Regex `/(\d+[.,]\d+)\s*kr?\s*\/\s*([lkgml]+)/i` (Oda unit-price regex,
line 220; note the literal is `k` with optional `r`): builds the
`"<num> kr/<unit>"` string of line 221. -/
def tryOdaUnitPrice (cs : List Char) : Option String := do
  let (cap1, r1) ← numTok true cs
  let (_, r2) := wsSpan r1
  match r2 with
  | c :: r3 =>
    guard (c.toLower = 'k')
    let r4 :=
      match r3 with
      | c2 :: rest => if c2.toLower = 'r' then rest else r3
      | [] => r3
    let (_, r5) := wsSpan r4
    match r5 with
    | '/' :: r6 =>
      let (_, r7) := wsSpan r6
      let (cap2, _) := r7.span (fun ch => ch.toLower = 'l' || ch.toLower = 'k' || ch.toLower = 'g' || ch.toLower = 'm')
      guard (!cap2.isEmpty)
      some (String.mk cap1 ++ " kr/" ++ String.mk cap2)
    | _ => none
  | [] => none

/-- Regex `/(\d+[.,]\d+)\s*kr\s*\/\s*(kg|l|stk)/i` (Meny unit-price regex,
line 302): builds the `"<num> kr/<unit>"` string of line 303. -/
def tryMenyUnitPrice (cs : List Char) : Option String := do
  let (cap1, r1) ← numTok true cs
  let (_, r2) := wsSpan r1
  let (_, r3) ← litCI ['k', 'r'] r2
  let (_, r4) := wsSpan r3
  match r4 with
  | '/' :: r5 =>
    let (_, r6) := wsSpan r5
    let (cap2, _) ← altLitsCI [['k', 'g'], ['l'], ['s', 't', 'k']] r6
    some (String.mk cap1 ++ " kr/" ++ String.mk cap2)
  | _ => none

/-- Regex `/(\d+[.,]?\d*)\s*kr\s*\/\s*kg/i` of `extractPricePerKg` (line 516):
parses the declared price per kilogram. -/
def tryKrPerKg (cs : List Char) : Option ℚ := do
  let (cap, r1) ← numTok false cs
  let (_, r2) := wsSpan r1
  let (_, r3) ← litCI ['k', 'r'] r2
  let (_, r4) := wsSpan r3
  match r4 with
  | '/' :: r5 =>
    let (_, r6) := wsSpan r5
    let (_, _) ← litCI ['k', 'g'] r6
    some (parseDecQ cap)
  | _ => none

/-- Regex `/(\d+[.,]?\d*)\s*(g|kg|ml|l)/i` of `calculatePricePerKg` (line 526):
value and lowercased unit. -/
def tryCalcWeight (cs : List Char) : Option (ℚ × String) := do
  let (cap, r1) ← numTok false cs
  let (_, r2) := wsSpan r1
  let (u, _) ← altLitsCI [['g'], ['k', 'g'], ['m', 'l'], ['l']] r2
  some (parseDecQ cap, String.mk (u.map Char.toLower))

/-- The Oda product id regex (line 228): literal `/products/`, then the
captured digits `(\d+)`, then a dash. -/
def tryOdaPid (cs : List Char) : Option (List Char) := do
  let r1 ← litCS ['/', 'p', 'r', 'o', 'd', 'u', 'c', 't', 's', '/'] cs
  let (d, r2) := digitSpan r1
  guard (!d.isEmpty)
  match r2 with
  | '-' :: _ => some d
  | _ => none

/-- One `[^\/]+` segment followed by `/`. -/
def pidSeg (cs : List Char) : Option (List Char) := do
  let (seg, r) := cs.span (· ≠ '/')
  guard (!seg.isEmpty)
  match r with
  | '/' :: rest => some rest
  | _ => none

/-- Regex `/\/varer\/[^\/]+\/[^\/]+\/[^\/]+\/([^\/]+)/` (Meny product id,
line 325): the fourth path segment after `/varer/`. -/
def tryMenyPid (cs : List Char) : Option (List Char) := do
  let r1 ← litCS ['/', 'v', 'a', 'r', 'e', 'r', '/'] cs
  let r2 ← pidSeg r1
  let r3 ← pidSeg r2
  let r4 ← pidSeg r3
  let (seg, _) := r4.span (· ≠ '/')
  guard (!seg.isEmpty)
  some seg

/-! ## JS number-to-string and the multi-pack weight normalization -/

/-- Decimal digits of a rational in `[0, 1)` whose decimal expansion is
finite (all values reachable here are products of parsed decimals, so their
reduced denominators divide a power of ten); the fuel bounds the loop. -/
def fracDigitsGo : Nat → ℚ → List Char
  | 0, _ => []
  | fuel + 1, r =>
    if r = 0 then []
    else
      let r10 := r * 10
      let d : Nat := r10.num.toNat / r10.den
      Char.ofNat ('0'.toNat + d) :: fracDigitsGo fuel (r10 - (d : ℚ))

/-- JS template interpolation of a nonnegative finite-decimal number
(`` `${totalValue}` ``): integers print without a decimal point. -/
def fmtJsNum (q : ℚ) : String :=
  let ip : Nat := q.num.toNat / q.den
  let frac : ℚ := q - (ip : ℚ)
  if frac = 0 then toString ip
  else toString ip ++ "." ++ String.mk (fracDigitsGo 30 frac)

/-- Weight extraction of the Oda document scraper (lines 196-211): the two
multi-pack regexes are tried on the aria label first (each as a full
`String.match`, joined by `||`); a hit yields `"<multiplier*base> <unit>"`,
otherwise the plain weight regex's whole match is used. -/
def odaWeightOf (ariaLabel : String) : Option String :=
  match
    (match scanFirst tryMultiPackX ariaLabel.data with
     | some r => some r
     | none => scanFirst tryMultiPackPk ariaLabel.data) with
  | some (m, v, u) => some (fmtJsNum ((m : ℚ) * v) ++ " " ++ String.mk u)
  | none => (scanFirst tryOdaWeightPlain ariaLabel.data).map String.mk

/-- Weight extraction of the Meny document scraper (lines 305-320): same
multi-pack handling on the container text, with the Meny plain-weight
regex as fallback. -/
def menyWeightOf (allText : String) : Option String :=
  match
    (match scanFirst tryMultiPackX allText.data with
     | some r => some r
     | none => scanFirst tryMultiPackPk allText.data) with
  | some (m, v, u) => some (fmtJsNum ((m : ℚ) * v) ++ " " ++ String.mk u)
  | none => (scanFirst tryMenyWeightPlain allText.data).map String.mk

/-! ## Price normalization (`extractPricePerKg`, `calculatePricePerKg`) -/

/-- Embeds `extractPricePerKg` (lines 514-521): declared `<num> kr / kg` unit
price, `null` for a falsy argument or no match. -/
def extractPricePerKg (unitPriceStr : Option String) : Option ℚ :=
  if !jsTruthyS unitPriceStr then none
  else
    match unitPriceStr with
    | some s => scanFirst tryKrPerKg s.data
    | none => none

/-- Embeds `calculatePricePerKg` (lines 523-542): price divided by the package
size in grams, times 1000; `ml`/`l` are treated as `g`/`kg`; `null` when
the weight string is falsy, unparsable, or gives zero grams. -/
def calculatePricePerKg (price : ℚ) (weightStr : Option String) : Option ℚ :=
  if !jsTruthyS weightStr then none
  else
    match weightStr with
    | none => none
    | some w =>
      match scanFirst tryCalcWeight w.data with
      | none => none
      | some (value, unit) =>
        let grams : ℚ :=
          if unit = "kg" then value * 1000
          else if unit = "g" then value
          else if unit = "l" then value * 1000
          else if unit = "ml" then value
          else 0
        if grams > 0 then some (price / grams * 1000) else none

/-! ## Candidates and observations -/

/-- A row of `price_observation_candidates` as assembled by
`productToCandidate`; `priceNok`/`pricePerKgNok` are kept as the numeric
values the source stringifies into the parameterized insert. -/
structure Candidate where
  canonicalIngredientId : Nat
  store : String
  productName : String
  productUrl : Option String
  packageSizeValue : Option String
  packageSizeUnit : Option String
  priceNok : ℚ
  pricePerKgNok : Option ℚ
  deriving Repr, DecidableEq, Inhabited

/-- A row of `price_observations` as assembled in `processIngredient`
(lines 726-737). -/
structure Observation where
  canonicalIngredientId : Nat
  selectedCandidateId : Nat
  store : String
  productName : String
  productUrl : Option String
  packageSizeValue : Option String
  packageSizeUnit : Option String
  priceNok : ℚ
  pricePerKgNok : Option ℚ
  sourceVersion : String
  deriving Repr, DecidableEq, Inhabited

/-- Embeds `productToCandidate` (lines 544-578). The second component models the
`console.warn` price-mismatch diagnostic of lines 559-564: it is `true`
exactly when both a declared and a computed price/kg exist and their
percentage difference exceeds 10. The strict `=== null` test of line 548
and the falsy test of line 576 (`pricePerKg ? … : null`, under which a
declared `0` is stored as `null`) are both mirrored. -/
def productToCandidate (product : RawProduct) (ingredientId : Nat) (store : String) :
    Candidate × Bool :=
  let declared := extractPricePerKg product.unit_price
  let result : Option ℚ × Bool :=
    match declared with
    | none =>
      if jsTruthyS product.weight then
        (calculatePricePerKg product.price product.weight, false)
      else (none, false)
    | some d =>
      if jsTruthyS product.weight then
        match calculatePricePerKg product.price product.weight with
        | some c => (some d, decide (|(c - d) / d| * 100 > 10))
        | none => (some d, false)
      else (some d, false)
  ({ canonicalIngredientId := ingredientId
     store := store
     productName := product.title
     productUrl := jsOrNullS product.image_url
     packageSizeValue := none
     packageSizeUnit := jsOrNullS product.weight
     priceNok := product.price
     pricePerKgNok := match result.1 with
       | some q => if q = 0 then none else some q
       | none => none },
   result.2)

/-! ## Structured-API extraction (`parseProductFromApi`,
`extractProductsFromApiResponses`, lines 442-511) -/

/-- A JSON price field: the source accepts a number or a numeric string. -/
inductive PriceVal where
  | num (q : ℚ)
  | str (s : String)
  deriving Repr, DecidableEq

/-- An item of an intercepted API payload, with every aliased field the
source inspects. `imagesFirstUrl` models `item.images?.[0]?.url`. -/
structure ApiItem where
  id : Option String := none
  product_id : Option String := none
  sku : Option String := none
  code : Option String := none
  name : Option String := none
  title : Option String := none
  product_name : Option String := none
  brand : Option String := none
  manufacturer : Option String := none
  vendor : Option String := none
  price : Option PriceVal := none
  gross_price : Option PriceVal := none
  sale_price : Option PriceVal := none
  current_price : Option PriceVal := none
  unit_price : Option String := none
  price_per_unit : Option String := none
  comparison_price : Option String := none
  weight : Option String := none
  size : Option String := none
  volume : Option String := none
  net_weight : Option String := none
  image_url : Option String := none
  image : Option String := none
  thumbnail : Option String := none
  imagesFirstUrl : Option String := none
  badges : Option (List String) := none
  labels : Option (List String) := none
  tags : Option (List String) := none
  deriving Repr, DecidableEq, Inhabited

/-- The slug of a title (line 495): lowercase, every run of chars outside
`[a-z0-9]` becomes one dash, then one leading and one trailing dash are
stripped (the effect of `replace(/^-|-$/g, '')` after run collapsing). -/
def slugGo : Bool → List Char → List Char
  | _, [] => []
  | inRun, c :: cs =>
    if ('a' ≤ c && c ≤ 'z') || ('0' ≤ c && c ≤ '9') then
      c :: slugGo false cs
    else
      if inRun then slugGo true cs else '-' :: slugGo true cs

/-- Strip a single leading and a single trailing dash. -/
def stripDashes (cs : List Char) : List Char :=
  let a := match cs with
    | '-' :: rest => rest
    | l => l
  match a.reverse with
  | '-' :: rest => rest.reverse
  | _ => a

def slugTitle (title : String) : String :=
  String.mk (stripDashes (slugGo false (lowerStr title).data))

/-- The `??` chain of line 488 (`null`-coalescing: unlike `||` it does not
skip `0` or `""`). -/
def priceValueOf (item : ApiItem) : Option PriceVal :=
  (((item.price).or item.gross_price).or item.sale_price).or item.current_price

/-- Lines 488-493: a number passes through; anything else goes through
`parseFloat(String(priceValue || 0))`; `none` models `NaN`. -/
def parsedPriceOf (item : ApiItem) : Option ℚ :=
  match priceValueOf item with
  | some (.num q) => some q
  | some (.str s) => parseFloatJS (if s = "" then "0" else s)
  | none => parseFloatJS "0"

/-- Embeds `parseProductFromApi` (lines 479-511): tolerant field aliasing with JS
`||` falsiness, rejection of missing titles and of non-positive or
unparsable prices, and the deterministic fallback id. -/
def parseProductFromApi (item : ApiItem) : Option RawProduct :=
  let idField := jsOrS item.id (jsOrS item.product_id (jsOrS item.sku item.code))
  let titleField := jsOrS item.name (jsOrS item.title item.product_name)
  let brandField := jsOrS item.brand (jsOrS item.manufacturer item.vendor)
  match titleField with
  | none => none
  | some title =>
    if title = "" then none
    else
      match parsedPriceOf item with
      | none => none
      | some parsedPrice =>
        if parsedPrice ≤ 0 then none
        else
          let weightField := jsOrS item.weight (jsOrS item.size (jsOrS item.volume item.net_weight))
          let deterministic :=
            ((brandField.getD "unknown") ++ "-" ++ slugTitle title ++ "-" ++
              (weightField.getD "std")).take 100
          let fallbackId := (jsOrS idField (some deterministic)).getD deterministic
          some
            { id := fallbackId
              title := title
              brand := jsOrNullS brandField
              price := parsedPrice
              unit_price := jsOrNullS (jsOrS item.unit_price
                (jsOrS item.price_per_unit item.comparison_price))
              weight := jsOrNullS weightField
              image_url := jsOrNullS (jsOrS item.image_url (jsOrS item.image
                (jsOrS item.thumbnail item.imagesFirstUrl)))
              badges :=
                match item.badges with
                | some bs => bs
                | none =>
                  match item.labels with
                  | some ls => ls
                  | none => item.tags.getD [] }

/-- An intercepted JSON body, in the shapes lines 450-472 distinguish:
an object with a `products` / `data.products` / `results` array (an
absent field is `none`; `Array.isArray` is folded into the typing), or a
bare array. -/
inductive ApiJson where
  | obj (products : Option (List ApiItem)) (dataProducts : Option (List ApiItem))
      (results : Option (List ApiItem))
  | arr (items : List ApiItem)
  deriving Repr, DecidableEq

/-- Products of one intercepted response (the body of the `for` loop of
lines 445-473); `none` stands for a request record without a `response`. -/
def productsOfResponse (req : Option ApiJson) : List RawProduct :=
  match req with
  | none => []
  | some (.obj products dataProducts results) =>
    match products with
    | some l => l.filterMap parseProductFromApi
    | none =>
      match dataProducts with
      | some l => l.filterMap parseProductFromApi
      | none =>
        match results with
        | some l => l.filterMap parseProductFromApi
        | none => []
  | some (.arr items) =>
    items.filterMap (fun item =>
      if jsTruthyS item.id || jsTruthyS item.name || jsTruthyS item.title then
        parseProductFromApi item
      else none)

/-- Embeds `extractProductsFromApiResponses` (lines 442-476). -/
def extractProductsFromApiResponses (requests : List (Option ApiJson)) : List RawProduct :=
  requests.foldl (fun acc req => acc ++ productsOfResponse req) []

/-! ## The Oda document scraper (`scrapeOdaProducts`, lines 131-257) -/

/-- What the page evaluation reads from one `[data-testid="product-tile"]`
element: its aria label, its text content, its image source, and the href
of a contained product link (if any). -/
structure OdaTile where
  ariaLabel : String
  text : String
  imgSrc : Option String
  href : Option String
  deriving Repr, DecidableEq, Inhabited

/-- Replace non-breaking spaces by spaces (`replace(/ /g, ' ')`). -/
def replaceNbsp (s : String) : String :=
  String.mk (s.data.map (fun c => if c = ' ' then ' ' else c))

/-- JS `split(' - ')` on the aria label (line 192), specialized to the
three-char separator. -/
def splitDashGo : List Char → List Char → List String
  | acc, ' ' :: '-' :: ' ' :: rest => String.mk acc.reverse :: splitDashGo [] rest
  | acc, c :: rest => splitDashGo (c :: acc) rest
  | acc, [] => [String.mk acc.reverse]

def splitDash (s : String) : List String :=
  splitDashGo [] s.data

/-- The per-tile extraction of lines 187-244; `nResults` is
`results.length` at the time the tile is processed (used for the fallback
product id). -/
def odaExtractTile (nResults : Nat) (tile : OdaTile) : Option RawProduct :=
  if tile.ariaLabel = "" then none
  else
    let title := jsTrim ((splitDash tile.ariaLabel).headD "")
    if title = "" then none
    else
      let weight := odaWeightOf tile.ariaLabel
      let allText := replaceNbsp tile.text
      let price : ℚ :=
        match scanFirst tryOdaPrice allText.data with
        | some cap => parseDecQ cap
        | none => 0
      if price ≤ 0 then none
      else
        let unitPrice := scanFirst tryOdaUnitPrice allText.data
        let href := tile.href.getD ""
        let productId :=
          match scanFirst tryOdaPid href.data with
          | some d => String.mk d
          | none => "product-" ++ toString nResults
        some
          { id := productId
            title := title
            brand := none
            price := price
            unit_price := unitPrice
            weight := weight
            image_url := jsOrNullS tile.imgSrc
            badges := [] }

/-- The tile loop (lines 187-246): skipped tiles add nothing, accepted
tiles append (the accumulator length is the running `results.length`). -/
def odaLoopGo : List OdaTile → List RawProduct → List RawProduct
  | [], acc => acc.reverse
  | t :: ts, acc =>
    match odaExtractTile acc.length t with
    | some p => odaLoopGo ts (p :: acc)
    | none => odaLoopGo ts acc

/-- Embeds `scrapeOdaProducts` (lines 131-257) as a function of the intercepted
network responses and the rendered tiles: the API path is preferred when
it yields at least one product, else the document path; each path is
capped by `slice(0, limit)` (the document evaluation also pre-slices the
tiles to 10, line 184). -/
def scrapeOdaProducts (requests : List (Option ApiJson)) (tiles : List OdaTile)
    (limit : Nat) : List RawProduct :=
  let fromDom := (odaLoopGo (tiles.take 10) []).take limit
  if requests.length > 0 then
    let apiProducts := extractProductsFromApiResponses requests
    if apiProducts.length > 0 then apiProducts.take limit
    else fromDom
  else fromDom

/-! ## The Meny document scraper (`scrapeMenyProducts`, lines 259-357) -/

/-- What the page evaluation reads for one `a[href*="/varer/"]` link: its
href, the text of its closest container (`none` when no container
exists), the trimmed h3 title (`none` when no h3), and the container's
image source. -/
structure MenyLink where
  href : String
  containerText : Option String
  h3Text : Option String
  imgSrc : Option String
  deriving Repr, DecidableEq, Inhabited

/-- Collapse whitespace runs to single spaces (`replace(/\s+/g, ' ')`,
line 294). -/
def collapseWsGo : Bool → List Char → List Char
  | _, [] => []
  | inRun, c :: cs =>
    if c.isWhitespace then
      if inRun then collapseWsGo true cs else ' ' :: collapseWsGo true cs
    else c :: collapseWsGo false cs

def collapseWs (s : String) : String :=
  String.mk (collapseWsGo false s.data)

/-- The per-link extraction of lines 279-338 (everything after the href
dedup check); `nResults` is `results.length` for the fallback id. -/
def menyExtractLink (nResults : Nat) (link : MenyLink) : Option RawProduct :=
  match link.containerText with
  | none => none
  | some containerText =>
    if containerText.length < 20 then none
    else
      let title := (link.h3Text.map jsTrim).getD ""
      if title = "" || title.length < 3 then none
      else
        let priceText := collapseWs (replaceNbsp containerText)
        let priceCap :=
          match scanFirst tryMenyPrice1 priceText.data with
          | some cap => some cap
          | none => scanFirst tryMenyPrice2 priceText.data
        match priceCap with
        | none => none
        | some cap =>
          let price := parseDecQ cap
          if price ≤ 0 then none
          else
            let unitPrice := scanFirst tryMenyUnitPrice priceText.data
            let weight := menyWeightOf containerText
            let productId :=
              match scanFirst tryMenyPid link.href.data with
              | some seg => String.mk seg
              | none =>
                let last := ((link.href.data.reverse.takeWhile (· ≠ '/')).reverse)
                if last.isEmpty then "meny-" ++ toString nResults
                else String.mk last
            some
              { id := productId
                title := title
                brand := none
                price := price
                unit_price := unitPrice
                weight := weight
                image_url := jsOrNullS link.imgSrc
                badges := [] }

/-- The link loop (lines 279-344): href dedup via `seen`, hard stop once
ten results have been collected. -/
def menyLoopGo : List MenyLink → List String → List RawProduct → List RawProduct
  | [], _, acc => acc.reverse
  | l :: ls, seen, acc =>
    if acc.length ≥ 10 then acc.reverse
    else if l.href = "" || seen.contains l.href then menyLoopGo ls seen acc
    else
      match menyExtractLink acc.length l with
      | some p => menyLoopGo ls (l.href :: seen) (p :: acc)
      | none => menyLoopGo ls seen acc

/-- Embeds `scrapeMenyProducts` (lines 259-357): the document loop capped by
`slice(0, limit)`. -/
def scrapeMenyProducts (links : List MenyLink) (limit : Nat) : List RawProduct :=
  (menyLoopGo links [] []).take limit

/-! ## The selection oracle verdict (`evaluateWithAI`, lines 360-439) -/

/-- The JSON verdict as parsed from the chat completion:
`selectedIndices` may be absent, `reasoning` may be absent or empty. -/
structure AIParsed where
  selectedIndices : Option (List Int) := none
  reasoning : Option String := none
  deriving Repr, DecidableEq, Inhabited

/-- The value `evaluateWithAI` returns. -/
structure Verdict where
  selectedIndices : List Int
  reasoning : String
  deriving Repr, DecidableEq

/-- Lines 435-438: `(parsed.selectedIndices || []).map(idx => idx - 1)` —
the 1-based positions are converted to 0-based indices unconditionally,
with no range validation; a missing or empty reasoning falls back to
`'AI selected product'`. -/
def evaluateWithAIVerdict (parsed : AIParsed) : Verdict :=
  { selectedIndices := (parsed.selectedIndices.getD []).map (· - 1)
    reasoning := (jsOrS parsed.reasoning (some "AI selected product")).getD "" }

/-- One line of the candidate brief sent to the oracle (lines 671-696). -/
structure AICand where
  productName : String
  priceNok : ℚ
  pricePerKgNok : Option ℚ
  store : String
  deriving Repr, DecidableEq

/-- Lines 672-683 / 684-695: price/kg for the brief — declared unit price,
else (when that is falsy and a weight exists) the computed value. -/
def toAICand (store : String) (p : RawProduct) : AICand :=
  let pk0 := extractPricePerKg p.unit_price
  let pk :=
    if jsFalsyQ pk0 && jsTruthyS p.weight then calculatePricePerKg p.price p.weight
    else pk0
  { productName := p.title, priceNok := p.price, pricePerKgNok := pk, store := store }

/-! ## The per-ingredient processing cycle (`processIngredient`,
lines 639-755), as an event trace -/

/-- External effects of one cycle, in order: each `saveCandidates` is one
multi-row parameterized INSERT (`Database.saveCandidates` issues a single
statement per call, lines 70-101, and none at all for an empty list),
`aiCall` is the OpenAI chat completion, `saveObservation` the
observations INSERT, `markScraped` the ingredients UPDATE that stamps
`last_scraped_at = NOW()` and sets `scrape_result`. -/
inductive DbEvent where
  | saveCandidates (rows : List Candidate)
  | aiCall (candidates : List AICand)
  | saveObservation (row : Observation)
  | markScraped (ingredientId : Nat) (result : Option String)
  deriving Repr, DecidableEq

/-- Embeds `Database.saveCandidates` (lines 70-101): no statement for an empty
list, otherwise one single multi-row statement. -/
def saveCandidatesEvents (rows : List Candidate) : List DbEvent :=
  if rows.isEmpty then [] else [.saveCandidates rows]

structure Ingredient where
  id : Nat
  name : String
  deriving Repr, DecidableEq

/-- The `{success, noResults}` result object of `processIngredient`
(an absent `noResults` is falsy). -/
structure ProcResult where
  success : Bool
  noResults : Bool
  deriving Repr, DecidableEq

/-- Embeds `processIngredient` (lines 639-755). The scraped raw lists are inputs
(the browser work is external); `ai` is the oracle interaction — `.error`
models any throw out of `evaluateWithAI` (HTTP failure, timeout, non-OK
status, malformed JSON), `.ok` the parsed verdict object. DB-generated
candidate ids are modelled as positions in the saved order (Oda rows
first), matching `allSavedIds[selectedIdx]`. An out-of-range converted
index makes `allSavedIds[selectedIdx].id` (line 713) throw a `TypeError`,
caught by the cycle's `catch` which marks the ingredient with a `null`
`scrape_result` (lines 746-754). -/
def processIngredient (ing : Ingredient) (odaRaw menyRaw : List RawProduct)
    (ai : Except Unit AIParsed) : ProcResult × List DbEvent :=
  let odaProducts := filterRelevantProducts odaRaw ing.name
  let menyProducts := filterRelevantProducts menyRaw ing.name
  if odaProducts.length = 0 && menyProducts.length = 0 then
    (⟨false, true⟩, [.markScraped ing.id (some "no_match")])
  else
    let odaCandidates := odaProducts.map (fun p => (productToCandidate p ing.id "oda").1)
    let menyCandidates := menyProducts.map (fun p => (productToCandidate p ing.id "meny").1)
    let evBase := saveCandidatesEvents odaCandidates ++ saveCandidatesEvents menyCandidates
    let allCandidatesForAI :=
      odaProducts.map (toAICand "oda") ++ menyProducts.map (toAICand "meny")
    match ai with
    | .error _ =>
      (⟨false, false⟩, evBase ++ [.aiCall allCandidatesForAI, .markScraped ing.id none])
    | .ok parsed =>
      let evaluation := evaluateWithAIVerdict parsed
      if evaluation.selectedIndices.length = 0 then
        (⟨false, true⟩,
          evBase ++ [.aiCall allCandidatesForAI, .markScraped ing.id (some "no_match")])
      else
        let selectedIdx := evaluation.selectedIndices.headD 0
        let allProducts := odaProducts ++ menyProducts
        if 0 ≤ selectedIdx ∧ selectedIdx < (allProducts.length : Int) then
          let idx := selectedIdx.toNat
          let selectedProduct := allProducts.getD idx default
          let selectedStore :=
            if selectedIdx < (odaProducts.length : Int) then "oda" else "meny"
          let fp0 := extractPricePerKg selectedProduct.unit_price
          let finalPricePerKg :=
            if jsFalsyQ fp0 && jsTruthyS selectedProduct.weight then
              calculatePricePerKg selectedProduct.price selectedProduct.weight
            else fp0
          let observation : Observation :=
            { canonicalIngredientId := ing.id
              selectedCandidateId := idx
              store := selectedStore
              productName := selectedProduct.title
              productUrl := jsOrNullS selectedProduct.image_url
              packageSizeValue := none
              packageSizeUnit := jsOrNullS selectedProduct.weight
              priceNok := selectedProduct.price
              pricePerKgNok :=
                match finalPricePerKg with
                | some q => if q = 0 then none else some q
                | none => none
              sourceVersion := "scraper_v2: " ++ evaluation.reasoning }
          (⟨true, false⟩,
            evBase ++ [.aiCall allCandidatesForAI, .saveObservation observation,
              .markScraped ing.id (some "matched")])
        else
          (⟨false, false⟩, evBase ++ [.aiCall allCandidatesForAI, .markScraped ing.id none])

/-! ## Re-scrape eligibility (`Database.getUnprocessedIngredients`,
lines 19-54) and `Database.markAsScraped` (lines 56-68) -/

/-- The scraping bookkeeping columns of an `ingredients` row. -/
structure IngredientRow where
  lastScrapedAt : Option ℚ
  scrapeResult : Option String
  deriving Repr, DecidableEq

/-- The `markAsScraped` UPDATE: stamps `last_scraped_at = NOW()` and sets
`scrape_result`. Time is measured in days. -/
def applyMarkScraped (now : ℚ) (result : Option String) : IngredientRow :=
  { lastScrapedAt := some now, scrapeResult := result }

/-- The WHERE clause of `getUnprocessedIngredients` (lines 29-52): never
scraped, or past the cooldown with a `null` (errored) or `'matched'`
result, or `'no_match'` older than 365 days. `now` and `cooldownDays` are
in days. -/
def isPending (row : IngredientRow) (now cooldownDays : ℚ) : Bool :=
  row.lastScrapedAt.isNone
  || (match row.lastScrapedAt with
      | some t =>
        (t < now - cooldownDays
          && (row.scrapeResult.isNone || row.scrapeResult = some "matched"))
        || (row.scrapeResult = some "no_match" && t < now - 365)
      | none => false)

/-! ## Trace predicates -/

def isAiCallEv : DbEvent → Bool
  | .aiCall _ => true
  | _ => false

def isSaveCandidatesEv : DbEvent → Bool
  | .saveCandidates _ => true
  | _ => false

/-- No candidate insert occurs at or after the first oracle call. -/
def savesPrecedeAiCall : List DbEvent → Bool
  | [] => true
  | e :: rest =>
    if isAiCallEv e then rest.all (fun x => !isSaveCandidatesEv x)
    else savesPrecedeAiCall rest

/-- Constraint of claim C10 on an event, relative to the pool of scraped
raw products of the cycle: every persisted candidate row and observation
row has a `null` `packageSizeValue`, and its `productUrl` is the
`image_url` of one of the scraped products (or `null`). -/
def rowSourcedOk (pool : List RawProduct) : DbEvent → Prop
  | .saveCandidates rows =>
    ∀ r ∈ rows, r.packageSizeValue = none ∧ ∃ p ∈ pool, r.productUrl = jsOrNullS p.image_url
  | .saveObservation o =>
    o.packageSizeValue = none ∧ ∃ p ∈ pool, o.productUrl = jsOrNullS p.image_url
  | _ => True

/-! ## Sample values used by concrete witnesses -/

/-- A lamb product as scraped from Oda. -/
def pLam : RawProduct :=
  { id := "1", title := "Lammefilet", brand := none, price := 50,
    unit_price := none, weight := some "400g",
    image_url := some "https://img.example/lam.jpg", badges := [] }

/-- A lamb product as scraped from Meny. -/
def pLamMeny : RawProduct :=
  { id := "2", title := "Lammekoteletter", brand := none, price := 60,
    unit_price := none, weight := none, image_url := none, badges := [] }

/-- A reindeer product (species-conflicting with lamb). -/
def pRein : RawProduct :=
  { id := "3", title := "Reinsdyrstek", brand := none, price := 200,
    unit_price := none, weight := none, image_url := none, badges := [] }

/-- A product with a declared unit price that disagrees with the computed
one by more than 10%. -/
def pMismatch : RawProduct :=
  { id := "4", title := "Kyllingfilet", brand := none, price := 799/10,
    unit_price := some "100,00 kr/kg", weight := some "500g",
    image_url := none, badges := [] }

/-- A sample ingredient. -/
def ingLam : Ingredient := ⟨7, "lam"⟩

/-- An Oda tile whose aria label carries a `2 x 75g` multi-pack size. -/
def tilePepperoni : OdaTile :=
  ⟨"Pepperoni 2 x 75g - Gilde", "Pepperoni 29,90 kr", none, none⟩

/-- An Oda tile whose aria label carries a `3 pk à 100g` multi-pack size. -/
def tileFiskekaker : OdaTile :=
  ⟨"Fiskekaker 3 pk à 100g - Lofoten", "Fiskekaker 45,50 kr", none, none⟩

/-- An Oda tile with a plain `500g` package size. -/
def tileKylling : OdaTile :=
  ⟨"Kyllingfilet 500g - Solvinge", "Kyllingfilet 79,90 kr", none, none⟩

/-- A Meny link whose container text carries a `2 x 75g` multi-pack size. -/
def linkPepperoni : MenyLink :=
  ⟨"/varer/kjott/polse/gilde/pepperoni-1", some "Pepperoni Mini 2 x 75g Gilde god klassiker 29,90 kr",
   some "Pepperoni Mini", none⟩

/-- A Meny link whose container text carries a `3 pk à 100g` multi-pack
size. -/
def linkFiskekaker : MenyLink :=
  ⟨"/varer/fisk/kaker/lofoten/fiskekaker-2", some "Fiskekaker 3 pk à 100g ferske fra Lofoten 45,50 kr",
   some "Fiskekaker", none⟩

/-! # Lemmas -/

/-- The filter never turns a non-empty list empty (fail-open). -/
theorem filterRelevantProducts_ne_nil (products : List RawProduct) (name : String)
    (h : products ≠ []) : filterRelevantProducts products name ≠ [] := by
  unfold filterRelevantProducts
  split
  · exact h
  · split
    · exact h
    · next h2 => intro hc; rw [hc] at h2; exact h2 rfl

/-- The filter's output is a sublist of its input. -/
theorem filterRelevantProducts_subset (products : List RawProduct) (name : String) :
    ∀ p ∈ filterRelevantProducts products name, p ∈ products := by
  intro p hp
  unfold filterRelevantProducts at hp
  split at hp
  · exact hp
  · split at hp
    · exact hp
    · exact List.mem_of_mem_filter hp

/-- Every event `Database.saveCandidates` emits is the single statement
with all the rows of the call. -/
theorem mem_saveCandidatesEvents {e : DbEvent} {l : List Candidate}
    (h : e ∈ saveCandidatesEvents l) : e = .saveCandidates l := by
  unfold saveCandidatesEvents at h
  split at h
  · exact absurd h (List.not_mem_nil e)
  · simpa using h

/-- The function `parseProductFromApi` only yields products with a positive price. -/
theorem parseProductFromApi_price_pos (item : ApiItem) (p : RawProduct)
    (h : parseProductFromApi item = some p) : 0 < p.price := by
  simp only [parseProductFromApi] at h
  split at h
  · exact absurd h (by simp)
  · split at h
    · exact absurd h (by simp)
    · split at h
      · exact absurd h (by simp)
      · next parsedPrice _ =>
          split at h
          · exact absurd h (by simp)
          · next hpos =>
              have hp := Option.some.inj h
              rw [← hp]
              exact lt_of_not_le hpos

/-- All products of one intercepted response have positive prices. -/
theorem productsOfResponse_price_pos (req : Option ApiJson) :
    ∀ p ∈ productsOfResponse req, 0 < p.price := by
  intro p hp
  unfold productsOfResponse at hp
  rcases req with _ | j
  · exact absurd hp (List.not_mem_nil p)
  · rcases j with ⟨products, dataProducts, results⟩ | items
    · rcases products with _ | l1
      · rcases dataProducts with _ | l2
        · rcases results with _ | l3
          · exact absurd hp (List.not_mem_nil p)
          · obtain ⟨a, _, ha⟩ := List.mem_filterMap.mp hp
            exact parseProductFromApi_price_pos a p ha
        · obtain ⟨a, _, ha⟩ := List.mem_filterMap.mp hp
          exact parseProductFromApi_price_pos a p ha
      · obtain ⟨a, _, ha⟩ := List.mem_filterMap.mp hp
        exact parseProductFromApi_price_pos a p ha
    · obtain ⟨a, _, ha⟩ := List.mem_filterMap.mp hp
      split at ha
      · exact parseProductFromApi_price_pos a p ha
      · exact absurd ha (by simp)

/-- The fold of `extractProductsFromApiResponses` is the concatenation of
the per-response extractions. -/
theorem extract_foldl_eq (reqs : List (Option ApiJson)) (acc : List RawProduct) :
    List.foldl (fun a r => a ++ productsOfResponse r) acc reqs
      = acc ++ (reqs.map productsOfResponse).flatten := by
  induction reqs generalizing acc with
  | nil => simp
  | cons r rs ih => simp [ih, List.append_assoc]

/-- All API-extracted products have positive prices. -/
theorem extractProductsFromApiResponses_price_pos (reqs : List (Option ApiJson)) :
    ∀ p ∈ extractProductsFromApiResponses reqs, 0 < p.price := by
  intro p hp
  unfold extractProductsFromApiResponses at hp
  rw [extract_foldl_eq, List.nil_append] at hp
  obtain ⟨l, hl, hpl⟩ := List.mem_flatten.mp hp
  obtain ⟨r, _, hr⟩ := List.mem_map.mp hl
  exact productsOfResponse_price_pos r p (hr ▸ hpl)

/-- An accepted Oda tile has a positive price (line 218 skips the rest). -/
theorem odaExtractTile_price_pos (n : Nat) (t : OdaTile) (p : RawProduct)
    (h : odaExtractTile n t = some p) : 0 < p.price := by
  simp only [odaExtractTile] at h
  split at h
  · exact absurd h (by simp)
  · split at h
    · exact absurd h (by simp)
    · split at h
      · exact absurd h (by simp)
      · next hpos =>
          have hp := Option.some.inj h
          rw [← hp]
          exact lt_of_not_le hpos

/-- Invariant of the Oda tile loop: positive prices are preserved. -/
theorem odaLoopGo_price_pos (ts : List OdaTile) (acc : List RawProduct)
    (hacc : ∀ p ∈ acc, 0 < p.price) : ∀ p ∈ odaLoopGo ts acc, 0 < p.price := by
  induction ts generalizing acc with
  | nil =>
      intro p hp
      rw [odaLoopGo, List.mem_reverse] at hp
      exact hacc p hp
  | cons t ts ih =>
      intro p hp
      rw [odaLoopGo] at hp
      split at hp
      · next q hq =>
          refine ih (q :: acc) ?_ p hp
          intro r hr
          rcases List.mem_cons.mp hr with rfl | hr
          · exact odaExtractTile_price_pos acc.length t r hq
          · exact hacc r hr
      · exact ih acc hacc p hp

/-- An accepted Meny link has a positive price (line 300 skips the rest). -/
theorem menyExtractLink_price_pos (n : Nat) (l : MenyLink) (p : RawProduct)
    (h : menyExtractLink n l = some p) : 0 < p.price := by
  simp only [menyExtractLink] at h
  split at h
  · exact absurd h (by simp)
  · split at h
    · exact absurd h (by simp)
    · split at h
      · exact absurd h (by simp)
      · split at h
        · exact absurd h (by simp)
        · split at h
          · exact absurd h (by simp)
          · next hpos =>
              have hp := Option.some.inj h
              rw [← hp]
              exact lt_of_not_le hpos

/-- Invariant of the Meny link loop: positive prices are preserved. -/
theorem menyLoopGo_price_pos (ls : List MenyLink) (seen : List String)
    (acc : List RawProduct) (hacc : ∀ p ∈ acc, 0 < p.price) :
    ∀ p ∈ menyLoopGo ls seen acc, 0 < p.price := by
  induction ls generalizing seen acc with
  | nil =>
      intro p hp
      rw [menyLoopGo, List.mem_reverse] at hp
      exact hacc p hp
  | cons l ls ih =>
      intro p hp
      rw [menyLoopGo] at hp
      split at hp
      · rw [List.mem_reverse] at hp
        exact hacc p hp
      · split at hp
        · exact ih seen acc hacc p hp
        · split at hp
          · next q hq =>
              refine ih (l.href :: seen) (q :: acc) ?_ p hp
              intro r hr
              rcases List.mem_cons.mp hr with rfl | hr
              · exact menyExtractLink_price_pos acc.length l r hq
              · exact hacc r hr
          · exact ih seen acc hacc p hp

/-- A `getD` at an in-range index is a member. -/
theorem getD_mem {α : Type} (l : List α) (n : Nat) (d : α) (h : n < l.length) :
    l.getD n d ∈ l := by
  induction l generalizing n with
  | nil => simp at h
  | cons a as ih =>
    cases n with
    | zero => simp [List.getD]
    | succ m =>
      simp only [List.getD_cons_succ]
      exact List.mem_cons_of_mem a (ih m (by simpa using h))

/-- Candidates built by `productToCandidate` have a `null`
`packageSizeValue`. -/
theorem productToCandidate_packageSizeValue (p : RawProduct) (i : Nat) (s : String) :
    (productToCandidate p i s).1.packageSizeValue = none := rfl

/-- Candidates built by `productToCandidate` carry the product's image URL
(or `null`) as `productUrl`. -/
theorem productToCandidate_productUrl (p : RawProduct) (i : Nat) (s : String) :
    (productToCandidate p i s).1.productUrl = jsOrNullS p.image_url := rfl

/-- Members of the two filtered per-store lists come from the raw pools. -/
theorem filtered_append_subset (odaRaw menyRaw : List RawProduct) (name : String) :
    ∀ q ∈ filterRelevantProducts odaRaw name ++ filterRelevantProducts menyRaw name,
      q ∈ odaRaw ++ menyRaw := by
  intro q hq
  rcases List.mem_append.mp hq with h | h
  · exact List.mem_append_left _ (filterRelevantProducts_subset odaRaw name q h)
  · exact List.mem_append_right _ (filterRelevantProducts_subset menyRaw name q h)

/-- Prepending events that are not oracle calls preserves
`savesPrecedeAiCall`. -/
theorem savesPrecedeAiCall_append (l1 l2 : List DbEvent)
    (h1 : ∀ e ∈ l1, isAiCallEv e = false) (h2 : savesPrecedeAiCall l2 = true) :
    savesPrecedeAiCall (l1 ++ l2) = true := by
  induction l1 with
  | nil => simpa using h2
  | cons e l ih =>
    rw [List.cons_append, savesPrecedeAiCall, if_neg]
    · exact ih (fun x hx => h1 x (List.mem_cons_of_mem e hx))
    · rw [h1 e (List.mem_cons_self e l)]
      simp

/-- The candidate-insert events of a cycle contain no oracle call. -/
theorem evBase_no_aiCall (l1 l2 : List Candidate) :
    ∀ e ∈ saveCandidatesEvents l1 ++ saveCandidatesEvents l2, isAiCallEv e = false := by
  intro e he
  rcases List.mem_append.mp he with h | h <;>
    rw [mem_saveCandidatesEvents h] <;> rfl

/-- The `saveCandidatesEvents` lists survive the candidate-insert filter. -/
theorem filter_saveCandidatesEvents (l : List Candidate) :
    (saveCandidatesEvents l).filter isSaveCandidatesEv = saveCandidatesEvents l := by
  unfold saveCandidatesEvents
  split <;> rfl

/-- When at least one store scraped at least one raw product, the
no-candidates short circuit of line 655 is not taken: by the fail-open
law the corresponding filtered list is also non-empty. -/
theorem not_both_stores_empty (odaRaw menyRaw : List RawProduct) (name : String)
    (hne : odaRaw ≠ [] ∨ menyRaw ≠ []) :
    ¬((decide ((filterRelevantProducts odaRaw name).length = 0)
        && decide ((filterRelevantProducts menyRaw name).length = 0)) = true) := by
  intro h
  rw [Bool.and_eq_true] at h
  rcases hne with hne | hne
  · exact filterRelevantProducts_ne_nil odaRaw name hne
      (List.length_eq_zero.mp (of_decide_eq_true h.1))
  · exact filterRelevantProducts_ne_nil menyRaw name hne
      (List.length_eq_zero.mp (of_decide_eq_true h.2))

/-! # Claims -/

/-- C3: for every non-empty input product list, the Relevance Filter never
returns an empty list — if the species-conflict veto would remove every
product, `filterRelevantProducts` returns the original unfiltered list
unchanged instead. -/
theorem C3_filter_fail_open (products : List RawProduct) (ingredientName : String)
    (h : products ≠ []) : filterRelevantProducts products ingredientName ≠ [] :=
  filterRelevantProducts_ne_nil products ingredientName h

/-- Witness for C3: a reindeer product queried for the lamb ingredient is
vetoed, yet the filter still returns a non-empty (the original) list. -/
theorem C3_filter_fail_open_witness :
    ([pRein] : List RawProduct) ≠ [] ∧ filterRelevantProducts [pRein] "lam" ≠ [] :=
  ⟨by decide, C3_filter_fail_open [pRein] "lam" (by decide)⟩

/-- C4: when the ingredient's primary category stem (the stem of its first
keyword of length > 2) is a key of the fixed mutual-exclusion table and at
least one product passes the veto, no product of the filter's output has a
title containing (as a stemmed word) a stem conflicting with that primary
category — independent of any other textual similarity, since the veto is
the only predicate the filter applies. -/
theorem C4_species_hard_veto (products : List RawProduct) (name : String)
    (conflicts : List String)
    (hconf : conflictsOf (primaryStemOf name) = some conflicts)
    (hsur : ∃ p ∈ products, productPasses (primaryStemOf name) p = true) :
    ∀ q ∈ filterRelevantProducts products name, ∀ c ∈ conflicts,
      (stemmedTitleWords q.title).contains c = false := by
  intro q hq c hc
  have hkw : (ingredientKeywords name).length ≠ 0 := by
    intro h0
    rw [List.length_eq_zero] at h0
    have hps : primaryStemOf name = "" := by unfold primaryStemOf; rw [h0]; rfl
    rw [hps] at hconf
    have : conflictsOf "" = none := by decide
    rw [this] at hconf
    exact Option.noConfusion hconf
  have hpass : productPasses (primaryStemOf name) q = true := by
    unfold filterRelevantProducts at hq
    split at hq
    · next hcond =>
        rcases Bool.or_eq_true_iff.mp hcond with hkw0 | hpr0
        · exact absurd (of_decide_eq_true hkw0) hkw
        · have : products = [] := List.length_eq_zero.mp (of_decide_eq_true hpr0)
          rw [this] at hq
          exact absurd hq (List.not_mem_nil q)
    · split at hq
      · next hflt =>
          obtain ⟨p, hp, hpp⟩ := hsur
          have hin : p ∈ products.filter (productPasses (primaryStemOf name)) :=
            List.mem_filter.mpr ⟨hp, hpp⟩
          rw [List.length_eq_zero] at hflt
          rw [hflt] at hin
          exact absurd hin (List.not_mem_nil p)
      · exact (List.mem_filter.mp hq).2
  unfold productPasses at hpass
  rw [hconf] at hpass
  simpa using List.all_eq_true.mp hpass c hc

/-- Witness for C4: for the ingredient `"lam"` (a conflict-table key) with
a lamb and a reindeer product, every output product — here the lamb one —
has no conflicting stem in its title. -/
theorem C4_species_hard_veto_witness :
    (stemmedTitleWords pLam.title).contains "rein" = false :=
  C4_species_hard_veto [pLam, pRein] "lam" ["rein", "storfe", "svin", "kylling"]
    (by decide) ⟨pLam, by decide, by decide⟩ pLam (by decide) "rein" (by decide)

/-- C6: for both sources and both extraction paths (structured API and
document), the returned list has length at most `limit` and every entry
has a positive price; items with non-positive or unparsable prices are
dropped (`parseProductFromApi` returns `null` for them, the document
loops `continue`), so they never become candidates. -/
theorem C6_extract_cap_and_positive_prices :
    (∀ (requests : List (Option ApiJson)) (tiles : List OdaTile) (limit : Nat),
      (scrapeOdaProducts requests tiles limit).length ≤ limit
      ∧ ∀ p ∈ scrapeOdaProducts requests tiles limit, 0 < p.price)
    ∧ (∀ (links : List MenyLink) (limit : Nat),
      (scrapeMenyProducts links limit).length ≤ limit
      ∧ ∀ p ∈ scrapeMenyProducts links limit, 0 < p.price)
    ∧ (∀ (item : ApiItem) (p : RawProduct), parseProductFromApi item = some p →
        0 < p.price) := by
  refine ⟨?_, ?_, parseProductFromApi_price_pos⟩
  · intro requests tiles limit
    constructor
    · simp only [scrapeOdaProducts]
      split
      · split
        · rw [List.length_take]; exact min_le_left _ _
        · rw [List.length_take]; exact min_le_left _ _
      · rw [List.length_take]; exact min_le_left _ _
    · intro p hp
      simp only [scrapeOdaProducts] at hp
      split at hp
      · split at hp
        · exact extractProductsFromApiResponses_price_pos _ p (List.take_subset _ _ hp)
        · exact odaLoopGo_price_pos _ [] (by simp) p (List.take_subset _ _ hp)
      · exact odaLoopGo_price_pos _ [] (by simp) p (List.take_subset _ _ hp)
  · intro links limit
    constructor
    · simp only [scrapeMenyProducts]
      rw [List.length_take]; exact min_le_left _ _
    · intro p hp
      simp only [scrapeMenyProducts] at hp
      exact menyLoopGo_price_pos links [] [] (by simp) p (List.take_subset _ _ hp)

/-- Witness for C6: a concrete Oda document extraction respects the cap
and its one member (`"Kyllingfilet 500g"` at 79.90) has a positive price. -/
theorem C6_extract_cap_and_positive_prices_witness :
    (scrapeOdaProducts [] [tileKylling] 5).length ≤ 5
    ∧ (0 : ℚ) < RawProduct.price
        { id := "product-0", title := "Kyllingfilet 500g", brand := none,
          price := 799/10, unit_price := none, weight := some "500g",
          image_url := none, badges := [] } :=
  ⟨(C6_extract_cap_and_positive_prices.1 [] [tileKylling] 5).1,
   (C6_extract_cap_and_positive_prices.1 [] [tileKylling] 5).2
     { id := "product-0", title := "Kyllingfilet 500g", brand := none,
       price := 799/10, unit_price := none, weight := some "500g",
       image_url := none, badges := [] } (by decide)⟩

/-- C8: for a product price `p` and a weight string whose leftmost weight
match has positive value `v` and unit `u`, the computed fallback equals
`p / grams * 1000` with `grams = v` for `g`, `v * 1000` for `kg`, and
`ml`/`l` treated as `g`/`kg`; concretely 79.90 with `"500g"` gives 159.8;
and when neither a declared unit price nor a parsable package size exists
the normalizer yields `null` (and `productToCandidate` still returns a
candidate, with a `null` `pricePerKgNok`, rather than failing). -/
theorem C8_price_per_kg_fallback :
    (∀ (price : ℚ) (w : String) (v : ℚ) (u : String),
      scanFirst tryCalcWeight w.data = some (v, u) → w ≠ "" → 0 < v →
      ((u = "g" ∨ u = "ml") → calculatePricePerKg price (some w) = some (price / v * 1000))
      ∧ ((u = "kg" ∨ u = "l") →
          calculatePricePerKg price (some w) = some (price / (v * 1000) * 1000)))
    ∧ calculatePricePerKg (799/10) (some "500g") = some (799/5)
    ∧ (∀ (p : RawProduct) (i : Nat) (s : String),
        extractPricePerKg p.unit_price = none →
        (∀ w, p.weight = some w → calculatePricePerKg p.price (some w) = none) →
        (productToCandidate p i s).1.pricePerKgNok = none) := by
  refine ⟨?_, by decide, ?_⟩
  · intro price w v u hscan hw hv
    constructor
    · rintro (rfl | rfl) <;> simp [calculatePricePerKg, jsTruthyS, hw, hscan, hv]
    · rintro (rfl | rfl) <;>
        simp [calculatePricePerKg, jsTruthyS, hw, hscan, mul_pos hv, hv]
  · intro p i s hd hw
    cases hpw : p.weight with
    | none => simp [productToCandidate, hd, hpw, jsTruthyS]
    | some w =>
      by_cases hw0 : w = ""
      · subst hw0
        simp [productToCandidate, hd, hpw, jsTruthyS]
      · simp [productToCandidate, hd, hpw, jsTruthyS, hw0, hw w hpw]

/-- Witness for C8: the general fallback law applied at 10 NOK and
`"500g"` (10 / 500 × 1000 = 20), the concrete 79.90/`"500g"` case, and
the `null` outcome for a product with no unit price and no weight. -/
theorem C8_price_per_kg_fallback_witness :
    calculatePricePerKg 10 (some "500g") = some (10 / 500 * 1000)
    ∧ (productToCandidate pLamMeny 7 "meny").1.pricePerKgNok = none :=
  ⟨(C8_price_per_kg_fallback.1 10 "500g" 500 "g" (by decide) (by decide) (by decide)).1
      (Or.inl rfl),
   C8_price_per_kg_fallback.2.2 pLamMeny 7 "meny" (by decide)
     (fun w hww => by simp [pLamMeny] at hww)⟩

/-- C9: when a product has both a store-declared price-per-kg `d` and a
computed one `c` and their percentage difference exceeds 10%, the
candidate builder emits the diagnostic warning (second component `true`)
but does not block the product: a candidate is still produced, and the
declared value `d` — not the computed one — is what is persisted as
`pricePerKgNok`. -/
theorem C9_reconciliation_warns_only (p : RawProduct) (i : Nat) (s : String) (d c : ℚ)
    (hd : extractPricePerKg p.unit_price = some d)
    (hw : jsTruthyS p.weight = true)
    (hc : calculatePricePerKg p.price p.weight = some c)
    (hdiff : |(c - d) / d| * 100 > 10) :
    (productToCandidate p i s).2 = true
    ∧ (productToCandidate p i s).1.pricePerKgNok = some d := by
  have hd0 : d ≠ 0 := by
    intro h0
    rw [h0, div_zero, abs_zero, zero_mul] at hdiff
    exact absurd hdiff (by norm_num)
  constructor
  · simp only [productToCandidate, hd, hw, if_true]
    rw [hc]
    simp [hdiff]
  · simp only [productToCandidate, hd, hw, if_true]
    rw [hc]
    simp [hd0]

/-- Witness for C9: declared 100 kr/kg versus computed 159.8 kr/kg
(59.8% apart) warns and persists the declared 100. -/
theorem C9_reconciliation_warns_only_witness :
    (productToCandidate pMismatch 7 "oda").2 = true
    ∧ (productToCandidate pMismatch 7 "oda").1.pricePerKgNok = some 100 :=
  C9_reconciliation_warns_only pMismatch 7 "oda" 100 (799/5)
    (by decide) (by decide) (by decide) (by decide)

/-- C10: every candidate row and every observation row the cycle persists
has `packageSizeValue = null` (the full package-size text lives in
`packageSizeUnit`), and its `productUrl` is the image URL of one of the
cycle's scraped products, or `null` — never a product page link, since
`productToCandidate` and the observation literal both store
`image_url || null` into `productUrl` (the `FIXED: use image_url instead
of id` lines 572 and 731). -/
theorem C10_rows_packageSize_null_productUrl_image (ing : Ingredient)
    (odaRaw menyRaw : List RawProduct) (ai : Except Unit AIParsed) :
    ∀ e ∈ (processIngredient ing odaRaw menyRaw ai).2,
      rowSourcedOk (odaRaw ++ menyRaw) e := by
  intro e he
  have candCase :
      ∀ (store : String) (src : List RawProduct),
        (∀ q ∈ src, q ∈ odaRaw ++ menyRaw) →
        e = .saveCandidates (src.map (fun p => (productToCandidate p ing.id store).1)) →
        rowSourcedOk (odaRaw ++ menyRaw) e := by
    intro store src hsub hce
    subst hce
    intro r hr
    obtain ⟨p, hp, rfl⟩ := List.mem_map.mp hr
    exact ⟨productToCandidate_packageSizeValue p ing.id store,
      ⟨p, hsub p hp, productToCandidate_productUrl p ing.id store⟩⟩
  simp only [processIngredient] at he
  split at he
  · rcases List.mem_singleton.mp he with rfl
    simp [rowSourcedOk]
  · split at he
    · rcases List.mem_append.mp he with hbase | hrest
      · rcases List.mem_append.mp hbase with hoda | hmeny
        · exact candCase "oda" _
            (fun q hq => List.mem_append_left _ (filterRelevantProducts_subset odaRaw ing.name q hq))
            (mem_saveCandidatesEvents hoda)
        · exact candCase "meny" _
            (fun q hq => List.mem_append_right _ (filterRelevantProducts_subset menyRaw ing.name q hq))
            (mem_saveCandidatesEvents hmeny)
      · rcases List.mem_cons.mp hrest with rfl | hrest
        · simp [rowSourcedOk]
        · rcases List.mem_cons.mp hrest with rfl | hrest
          · simp [rowSourcedOk]
          · exact absurd hrest (List.not_mem_nil e)
    · split at he
      · rcases List.mem_append.mp he with hbase | hrest
        · rcases List.mem_append.mp hbase with hoda | hmeny
          · exact candCase "oda" _
              (fun q hq => List.mem_append_left _ (filterRelevantProducts_subset odaRaw ing.name q hq))
              (mem_saveCandidatesEvents hoda)
          · exact candCase "meny" _
              (fun q hq => List.mem_append_right _ (filterRelevantProducts_subset menyRaw ing.name q hq))
              (mem_saveCandidatesEvents hmeny)
        · rcases List.mem_cons.mp hrest with rfl | hrest
          · simp [rowSourcedOk]
          · rcases List.mem_cons.mp hrest with rfl | hrest
            · simp [rowSourcedOk]
            · exact absurd hrest (List.not_mem_nil e)
      · split at he
        · next hrange =>
            rcases List.mem_append.mp he with hbase | hrest
            · rcases List.mem_append.mp hbase with hoda | hmeny
              · exact candCase "oda" _
                  (fun q hq => List.mem_append_left _ (filterRelevantProducts_subset odaRaw ing.name q hq))
                  (mem_saveCandidatesEvents hoda)
              · exact candCase "meny" _
                  (fun q hq => List.mem_append_right _ (filterRelevantProducts_subset menyRaw ing.name q hq))
                  (mem_saveCandidatesEvents hmeny)
            · rcases List.mem_cons.mp hrest with rfl | hrest
              · simp [rowSourcedOk]
              · rcases List.mem_cons.mp hrest with rfl | hrest
                · refine ⟨rfl, ?_⟩
                  refine ⟨_, ?_, rfl⟩
                  refine filtered_append_subset odaRaw menyRaw ing.name _ (getD_mem _ _ _ ?_)
                  omega
                · rcases List.mem_cons.mp hrest with rfl | hrest
                  · simp [rowSourcedOk]
                  · exact absurd hrest (List.not_mem_nil e)
        · rcases List.mem_append.mp he with hbase | hrest
          · rcases List.mem_append.mp hbase with hoda | hmeny
            · exact candCase "oda" _
                (fun q hq => List.mem_append_left _ (filterRelevantProducts_subset odaRaw ing.name q hq))
                (mem_saveCandidatesEvents hoda)
            · exact candCase "meny" _
                (fun q hq => List.mem_append_right _ (filterRelevantProducts_subset menyRaw ing.name q hq))
                (mem_saveCandidatesEvents hmeny)
          · rcases List.mem_cons.mp hrest with rfl | hrest
            · simp [rowSourcedOk]
            · rcases List.mem_cons.mp hrest with rfl | hrest
              · simp [rowSourcedOk]
              · exact absurd hrest (List.not_mem_nil e)

/-- Witness for C10: the candidate insert of a concrete matched cycle for
`"lam"` satisfies the row shape. -/
theorem C10_rows_packageSize_null_productUrl_image_witness :
    rowSourcedOk ([pLam] ++ [])
      (DbEvent.saveCandidates [(productToCandidate pLam 7 "oda").1]) :=
  C10_rows_packageSize_null_productUrl_image ingLam [pLam] [] (.ok ⟨some [1], some "ok"⟩)
    (DbEvent.saveCandidates [(productToCandidate pLam 7 "oda").1]) (by decide)

/-- Counterexample for C2: an ingredient whose cycle throws (oracle error)
is marked with a `null` `scrape_result` and a fresh `last_scraped_at`
(day 0), but on the immediately next run — six hours (¼ day) later, with
the default 60-day cooldown — `getUnprocessedIngredients` does **not**
select it: the claim's "eligible for retry on the immediately next run
regardless of the cooldown" is false; the `scrape_result IS NULL` arm of
the WHERE clause sits under the same `last_scraped_at < NOW() - cooldown`
condition as the `matched` arm. -/
theorem C2_error_retry_counterexample :
    (processIngredient ingLam [pLam] [] (.error ())).2.getLast?
        = some (.markScraped 7 none)
    ∧ isPending (applyMarkScraped 0 none) (1/4) 60 = false := by decide

/-- C2 (amended): a cycle that throws sets `scrapeResult` to `null`
(distinct from `no_match`) and stamps `lastScrapedAt`, and the ingredient
becomes retry-eligible again exactly when the cooldown has passed
(`t < now − cooldownDays`) — not immediately on the next run. -/
theorem C2_error_sets_null_and_retries_after_cooldown (ing : Ingredient)
    (odaRaw menyRaw : List RawProduct) (hne : odaRaw ≠ [] ∨ menyRaw ≠ []) :
    (processIngredient ing odaRaw menyRaw (.error ())).1 = ⟨false, false⟩
    ∧ (∃ pre, (processIngredient ing odaRaw menyRaw (.error ())).2
        = pre ++ [.markScraped ing.id none])
    ∧ (∀ t now cooldownDays : ℚ,
        isPending (applyMarkScraped t none) now cooldownDays = true
          ↔ t < now - cooldownDays) := by
  have hcond := not_both_stores_empty odaRaw menyRaw ing.name hne
  refine ⟨?_, ?_, ?_⟩
  · simp only [processIngredient]
    rw [if_neg hcond]
  · simp only [processIngredient]
    rw [if_neg hcond]
    exact ⟨_, List.append_cons _ _ _⟩
  · intro t now cooldownDays
    simp [isPending, applyMarkScraped]

/-- Witness for C2 (amended), at a concrete errored cycle for `"lam"`. -/
theorem C2_error_sets_null_and_retries_after_cooldown_witness :
    (processIngredient ingLam [pLam] [] (.error ())).1 = ⟨false, false⟩
    ∧ (∃ pre, (processIngredient ingLam [pLam] [] (.error ())).2
        = pre ++ [.markScraped ingLam.id none])
    ∧ (∀ t now cooldownDays : ℚ,
        isPending (applyMarkScraped t none) now cooldownDays = true
          ↔ t < now - cooldownDays) :=
  C2_error_sets_null_and_retries_after_cooldown ingLam [pLam] [] (by decide)

/-- Counterexample for C1: the claim says a returned position of 0 (or
`> n`) "fails with OracleError **before** conversion to a 0-based index".
`evaluateWithAI` performs no validation: position 0 is converted to the
0-based index −1 without any failure (first conjunct), and the cycle only
errors later, when `allSavedIds[selectedIdx].id` throws — the run is
recorded as an error (`scrape_result = null`), shown by the last two
conjuncts. -/
theorem C1_no_validation_counterexample :
    evaluateWithAIVerdict ⟨some [0], some "low"⟩
        = ⟨[-1], "low"⟩
    ∧ (processIngredient ingLam [pLam] [] (.ok ⟨some [0], some "low"⟩)).1
        = ⟨false, false⟩
    ∧ (processIngredient ingLam [pLam] [] (.ok ⟨some [0], some "low"⟩)).2.getLast?
        = some (.markScraped 7 none) := by decide

/-- C1 (amended): an oracle verdict whose first position is 0 or greater
than the candidate count is converted to a 0-based index unconditionally
(no validation, no `OracleError`); the out-of-range index then causes a
runtime error while resolving the saved candidate, so the cycle is
recorded as an error — `scrape_result` set to `null`, no observation
saved, `noResults` false — not as a `no_match`. A verdict with an
explicitly empty selection instead yields the `no_match` outcome. -/
theorem C1_out_of_range_errors_empty_no_match (ing : Ingredient)
    (odaRaw menyRaw : List RawProduct) (pos : Int) (rest : List Int)
    (reasoning : Option String) (hne : odaRaw ≠ [] ∨ menyRaw ≠ [])
    (hpos : pos = 0 ∨ pos > ((filterRelevantProducts odaRaw ing.name).length
        + (filterRelevantProducts menyRaw ing.name).length : Int)) :
    ((processIngredient ing odaRaw menyRaw (.ok ⟨some (pos :: rest), reasoning⟩)).1
        = ⟨false, false⟩
      ∧ (∃ pre, (processIngredient ing odaRaw menyRaw (.ok ⟨some (pos :: rest), reasoning⟩)).2
          = pre ++ [.markScraped ing.id none])
      ∧ (∀ o, DbEvent.saveObservation o ∉
          (processIngredient ing odaRaw menyRaw (.ok ⟨some (pos :: rest), reasoning⟩)).2))
    ∧ ((processIngredient ing odaRaw menyRaw (.ok ⟨some [], reasoning⟩)).1 = ⟨false, true⟩
      ∧ (∃ pre, (processIngredient ing odaRaw menyRaw (.ok ⟨some [], reasoning⟩)).2
          = pre ++ [.markScraped ing.id (some "no_match")])) := by
  have hcond := not_both_stores_empty odaRaw menyRaw ing.name hne
  have hlen : ¬((evaluateWithAIVerdict ⟨some (pos :: rest), reasoning⟩).selectedIndices.length
      = 0) := by
    simp [evaluateWithAIVerdict]
  have hrange : ¬(0 ≤ (evaluateWithAIVerdict ⟨some (pos :: rest), reasoning⟩).selectedIndices.headD 0
      ∧ (evaluateWithAIVerdict ⟨some (pos :: rest), reasoning⟩).selectedIndices.headD 0
        < ((filterRelevantProducts odaRaw ing.name
            ++ filterRelevantProducts menyRaw ing.name).length : Int)) := by
    simp only [evaluateWithAIVerdict, Option.getD, List.map_cons, List.headD_cons,
      List.length_append]
    rcases hpos with rfl | hgt
    · rintro ⟨h1, _⟩; omega
    · rintro ⟨_, h2⟩; omega
  constructor
  · refine ⟨?_, ?_, ?_⟩
    · simp only [processIngredient]
      rw [if_neg hcond, if_neg hlen, if_neg hrange]
    · simp only [processIngredient]
      rw [if_neg hcond, if_neg hlen, if_neg hrange]
      exact ⟨_, List.append_cons _ _ _⟩
    · intro o ho
      simp only [processIngredient] at ho
      rw [if_neg hcond, if_neg hlen, if_neg hrange] at ho
      rcases List.mem_append.mp ho with h | h
      · rcases List.mem_append.mp h with h | h <;>
          exact absurd (mem_saveCandidatesEvents h) (by simp)
      · rcases List.mem_cons.mp h with h | h
        · exact absurd h (by simp)
        · rcases List.mem_cons.mp h with h | h
          · exact absurd h (by simp)
          · exact absurd h (List.not_mem_nil _)
  · have hlen0 : (evaluateWithAIVerdict ⟨some [], reasoning⟩).selectedIndices.length = 0 := by
      simp [evaluateWithAIVerdict]
    refine ⟨?_, ?_⟩
    · simp only [processIngredient]
      rw [if_neg hcond, if_pos hlen0]
    · simp only [processIngredient]
      rw [if_neg hcond, if_pos hlen0]
      exact ⟨_, List.append_cons _ _ _⟩

/-- Witness for C1 (amended), at a concrete cycle for `"lam"` with one
candidate and an oracle verdict citing position 2 (> 1). -/
theorem C1_out_of_range_errors_empty_no_match_witness :
    ((processIngredient ingLam [pLam] [] (.ok ⟨some [2], some "r"⟩)).1
        = ⟨false, false⟩
      ∧ (∃ pre, (processIngredient ingLam [pLam] [] (.ok ⟨some [2], some "r"⟩)).2
          = pre ++ [.markScraped ingLam.id none])
      ∧ (∀ o, DbEvent.saveObservation o ∉
          (processIngredient ingLam [pLam] [] (.ok ⟨some [2], some "r"⟩)).2))
    ∧ ((processIngredient ingLam [pLam] [] (.ok ⟨some [], some "r"⟩)).1 = ⟨false, true⟩
      ∧ (∃ pre, (processIngredient ingLam [pLam] [] (.ok ⟨some [], some "r"⟩)).2
          = pre ++ [.markScraped ingLam.id (some "no_match")])) :=
  C1_out_of_range_errors_empty_no_match ingLam [pLam] [] 2 [] (some "r")
    (by decide) (Or.inr (by decide))

/-- Counterexample for C5: in a concrete cycle with one surviving product
per store, the trace contains **two** candidate-insert statements
(`db.saveCandidates(odaCandidates)` then `db.saveCandidates(menyCandidates)`,
lines 666-667) — not the single all-stores bulk insert the claim states. -/
theorem C5_single_bulk_insert_counterexample :
    ¬(((processIngredient ingLam [pLam] [pLamMeny] (.ok ⟨some [1], some "ok"⟩)).2.filter
        isSaveCandidatesEv).length = 1)
    ∧ ((processIngredient ingLam [pLam] [pLamMeny] (.ok ⟨some [1], some "ok"⟩)).2.filter
        isSaveCandidatesEv).length = 2 := by decide

/-- C5 (amended): the cycle persists candidates with one multi-row bulk
insert **per store** (each call to `Database.saveCandidates` issues a
single statement carrying all of that store's rows, and none for an empty
list), and every candidate insert happens before the Selection Oracle is
invoked. -/
theorem C5_per_store_bulk_inserts_before_oracle (ing : Ingredient)
    (odaRaw menyRaw : List RawProduct) (ai : Except Unit AIParsed) :
    savesPrecedeAiCall (processIngredient ing odaRaw menyRaw ai).2 = true
    ∧ (processIngredient ing odaRaw menyRaw ai).2.filter isSaveCandidatesEv
      = saveCandidatesEvents ((filterRelevantProducts odaRaw ing.name).map
          (fun p => (productToCandidate p ing.id "oda").1))
        ++ saveCandidatesEvents ((filterRelevantProducts menyRaw ing.name).map
          (fun p => (productToCandidate p ing.id "meny").1)) := by
  constructor
  · simp only [processIngredient]
    split
    · rfl
    · split
      · exact savesPrecedeAiCall_append _ _ (evBase_no_aiCall _ _) (by simp [savesPrecedeAiCall, isAiCallEv, isSaveCandidatesEv])
      · split
        · exact savesPrecedeAiCall_append _ _ (evBase_no_aiCall _ _) (by simp [savesPrecedeAiCall, isAiCallEv, isSaveCandidatesEv])
        · split
          · exact savesPrecedeAiCall_append _ _ (evBase_no_aiCall _ _) (by simp [savesPrecedeAiCall, isAiCallEv, isSaveCandidatesEv])
          · exact savesPrecedeAiCall_append _ _ (evBase_no_aiCall _ _) (by simp [savesPrecedeAiCall, isAiCallEv, isSaveCandidatesEv])
  · simp only [processIngredient]
    split
    · next hcond =>
        rw [Bool.and_eq_true] at hcond
        have h1 : filterRelevantProducts odaRaw ing.name = [] :=
          List.length_eq_zero.mp (of_decide_eq_true hcond.1)
        have h2 : filterRelevantProducts menyRaw ing.name = [] :=
          List.length_eq_zero.mp (of_decide_eq_true hcond.2)
        rw [h1, h2]
        rfl
    · split
      · rw [List.filter_append, List.filter_append, filter_saveCandidatesEvents,
          filter_saveCandidatesEvents]
        simp [isSaveCandidatesEv]
      · split
        · rw [List.filter_append, List.filter_append, filter_saveCandidatesEvents,
            filter_saveCandidatesEvents]
          simp [isSaveCandidatesEv]
        · split
          · rw [List.filter_append, List.filter_append, filter_saveCandidatesEvents,
              filter_saveCandidatesEvents]
            simp [isSaveCandidatesEv]
          · rw [List.filter_append, List.filter_append, filter_saveCandidatesEvents,
              filter_saveCandidatesEvents]
            simp [isSaveCandidatesEv]

/-- C7: multi-pack package-size normalization in both document extractors:
an item whose text carries `"2 x 75g"` yields the package size `"150 g"`
(2 × 75 g) and one carrying `"3 pk à 100g"` yields `"300 g"` — multiplier
times base amount, same unit. -/
theorem C7_multipack_normalization :
    ((scrapeOdaProducts [] [tilePepperoni] 5).map (·.weight) = [some "150 g"])
    ∧ ((scrapeOdaProducts [] [tileFiskekaker] 5).map (·.weight) = [some "300 g"])
    ∧ ((scrapeMenyProducts [linkPepperoni] 5).map (·.weight) = [some "150 g"])
    ∧ ((scrapeMenyProducts [linkFiskekaker] 5).map (·.weight) = [some "300 g"]) := by
  decide

end BatchScraper
